import Mathlib

set_option autoImplicit false

/-!
Shallow embedding of the deployment watcher and orchestration logic of the
cdp CLI (cmd/deploy.go, internal/deploy, internal/api).  Pure data flow is
modelled directly; every network call is represented by the response the
control plane would give, supplied as an argument, and every side effect
(HTTP call issued, log text printed, sleep performed) is recorded in an
explicit trace so that the theorems can speak about them.
-/

namespace Cdp

/-- Models Go `strings.ToLower` restricted to ASCII, which is how every
status string in the watcher is compared (cmd/deploy.go uses
`strings.ToLower` before each comparison). -/
def charToLower (c : Char) : Char :=
  if c.toNat ≥ 65 ∧ c.toNat ≤ 90 then Char.ofNat (c.toNat + 32) else c

/-- ASCII lowercase of a string, one character per Go byte. -/
def strToLower (s : String) : String :=
  ⟨s.data.map charToLower⟩

/-- One record returned by the deployment-list endpoint
(`client.ListDeployments`), restricted to the fields `watchDeployment`
reads: `UUID`, `DeploymentUUID`, `Status`. -/
structure DeploymentItem where
  uuid : String
  deploymentUUID : String
  status : String
deriving DecidableEq, Repr

/-- Result of a `client.ListDeployments` call: a transport or API error, or
the (possibly empty) list of deployments, most recent first. -/
inductive ListResp where
  | fail
  | ok (deployments : List DeploymentItem)
deriving DecidableEq, Repr

/-- Result of a `client.GetDeployment` call: an error, or the detail status
together with the parsed log blob.  The source feeds `detail.Logs` through
`api.ParseLogs` before use; `ParseLogs` is defined outside the watcher, so
the model carries its output directly, as a list of characters (one element
per byte of the Go string, so that list length and drop mirror Go `len` and
slicing). -/
inductive DetailResp where
  | fail
  | ok (status : String) (parsedLogs : List Char)
deriving DecidableEq, Repr

/-- Result of a `client.GetApplication` call restricted to the `Status`
field, the only one the watcher consults. -/
inductive AppResp where
  | fail
  | ok (status : String)
deriving DecidableEq, Repr

/-- Everything the control plane could answer during one iteration of the
polling loop.  Only the endpoints actually reached in that iteration are
consulted by the step function. -/
structure PollResponses where
  list : ListResp
  detail : DetailResp
  app : AppResp
deriving DecidableEq, Repr

/-- The loop-local variables of `watchDeployment`
(cmd/deploy.go lines 939 to 944). -/
structure WatchState where
  attempt : Nat
  lastLogLen : Nat
  lastDeploymentUUID : String
  hadDeployment : Bool
  emptyCount : Nat
deriving DecidableEq, Repr

/-- Initial values of the loop variables (lines 939 to 944). -/
def initialWatchState : WatchState :=
  { attempt := 0, lastLogLen := 0, lastDeploymentUUID := "",
    hadDeployment := false, emptyCount := 0 }

/-- `maxAttempts := 120` (line 940): 4 minutes maximum at 2 second
intervals. -/
def maxAttempts : Nat := 120

/-- Which return site of `watchDeployment` produced the verdict; each
constructor corresponds to exactly one `return` statement of the source
(and, in the second variant of the function, to its distinct user-visible
message). -/
inductive ExitReason where
  /-- detail status is finished (line 1054). -/
  | detailFinished
  /-- detail status is failed, error or cancelled (line 1057). -/
  | detailTerminal (status : String)
  /-- list-item status is finished (line 1065). -/
  | listFinished
  /-- list-item status is failed, error or cancelled (line 1068). -/
  | listTerminal (status : String)
  /-- empty-streak fallback, application status running (line 982). -/
  | appRunning
  /-- empty-streak fallback, application status exited, error or failed
  (line 984). -/
  | appStatusBad (status : String)
  /-- empty-streak fallback, any other application status (line 988). -/
  | appAssumeSuccess
  /-- empty-streak fallback, GetApplication itself errored (line 975). -/
  | appCheckError
  /-- never saw a deployment and attempt is at least 15 (line 991). -/
  | noDeploymentFound
  /-- the attempt budget was exhausted (line 1077). -/
  | timeout
deriving DecidableEq, Repr

/-- Outcome of one loop iteration: either a final verdict or the state the
next iteration starts from. -/
inductive CycleNext where
  | ret (verdict : Bool) (reason : ExitReason)
  | cont (s : WatchState)
deriving DecidableEq, Repr

/-- One loop iteration also emits log output: the raw pieces passed to
`fmt.Print` (line 1044). -/
structure CycleOut where
  printed : List (List Char)
  next : CycleNext
deriving DecidableEq, Repr

/-- Terminal failure statuses of a deployment (lines 1057 and 1068). -/
def isTerminalFailureStatus (s : String) : Bool :=
  s = "failed" || s = "error" || s = "cancelled"

/-- Application statuses treated as failure in the empty-streak fallback
(line 984). -/
def isBadAppStatus (s : String) : Bool :=
  s = "exited" || s = "error" || s = "failed"

/-- The canonical deployment identifier: `DeploymentUUID` when present,
otherwise the record `UUID` (lines 1013 to 1016). -/
def canonicalUUID (d : DeploymentItem) : String :=
  if d.deploymentUUID = "" then d.uuid else d.deploymentUUID

/-- Fallback classification from the list-item status, executed at the end
of every non-empty cycle that did not return from the detail check
(lines 1063 to 1070), followed by the sleep and attempt increment
(lines 1072 to 1073) when no terminal status is seen. -/
def listClassify (s : WatchState) (latest : DeploymentItem)
    (printed : List (List Char)) : CycleOut :=
  let status := strToLower latest.status
  if status = "finished" then ⟨printed, .ret true .listFinished⟩
  else if isTerminalFailureStatus status then
    ⟨printed, .ret false (.listTerminal status)⟩
  else ⟨printed, .cont { s with attempt := s.attempt + 1 }⟩

/-- One iteration of the polling loop of `watchDeployment`
(cmd/deploy.go lines 946 to 1074), as a function from the current loop
variables and the responses the control plane gives in this cycle to the
printed log pieces and either a verdict or the next state. -/
def watchStep (s : WatchState) (r : PollResponses) : CycleOut :=
  match r.list with
  | .fail =>
    -- lines 948 to 956: ListDeployments error, sleep and retry
    ⟨[], .cont { s with attempt := s.attempt + 1 }⟩
  | .ok deployments =>
    match deployments with
    | [] =>
      -- lines 965 to 1002: empty list
      let emptyCount := s.emptyCount + 1
      if s.hadDeployment = true ∧ 3 ≤ emptyCount then
        -- lines 968 to 989: deployment disappeared, check application status
        match r.app with
        | .fail => ⟨[], .ret true .appCheckError⟩
        | .ok appStatusRaw =>
          let appStatus := strToLower appStatusRaw
          if appStatus = "running" then ⟨[], .ret true .appRunning⟩
          else if isBadAppStatus appStatus then
            ⟨[], .ret false (.appStatusBad appStatus)⟩
          else ⟨[], .ret true .appAssumeSuccess⟩
      else if s.hadDeployment = false ∧ 15 ≤ s.attempt then
        -- lines 991 to 996: never saw a deployment, give up
        ⟨[], .ret false .noDeploymentFound⟩
      else
        ⟨[], .cont { s with emptyCount := emptyCount, attempt := s.attempt + 1 }⟩
    | latest :: _ =>
      -- lines 1005 to 1070: at least one deployment
      let s1 : WatchState := { s with hadDeployment := true, emptyCount := 0 }
      let deployUUID := canonicalUUID latest
      -- lines 1023 to 1026: reset the log offset when the tracked UUID changes
      let s2 : WatchState :=
        if deployUUID = s1.lastDeploymentUUID then s1
        else { s1 with lastDeploymentUUID := deployUUID, lastLogLen := 0 }
      match r.detail with
      | .fail => listClassify s2 latest []
      | .ok detailStatusRaw parsedLogs =>
        -- lines 1040 to 1049: print the newly available log suffix
        let printed :=
          if s2.lastLogLen < parsedLogs.length then [parsedLogs.drop s2.lastLogLen] else []
        let s3 : WatchState :=
          if s2.lastLogLen < parsedLogs.length then { s2 with lastLogLen := parsedLogs.length } else s2
        -- lines 1052 to 1059: classify the detail status
        let status := strToLower detailStatusRaw
        if status = "finished" then ⟨printed, .ret true .detailFinished⟩
        else if isTerminalFailureStatus status then
          ⟨printed, .ret false (.detailTerminal status)⟩
        else listClassify s3 latest printed

/-- Final outcome of `watchDeployment` together with the observable trace:
the boolean verdict the function returns, the return site that produced it,
the number of ListDeployments polls that were made, the log pieces printed,
and the durations (in seconds) of the sleeps performed between polls. -/
structure WatchResult where
  verdict : Bool
  reason : ExitReason
  polls : Nat
  prints : List (List Char)
  sleeps : List Nat
deriving DecidableEq, Repr

/-- The polling loop `for attempt < maxAttempts` of `watchDeployment`,
driven by the remaining fuel, which equals `maxAttempts - attempt`
throughout (every continuing branch of the body increments `attempt` by
exactly one and sleeps exactly 2 seconds, lines 953, 1000 and 1072).
`resp n` is what the control plane answers on the poll made with
`attempt = n`. -/
def watchAux (resp : Nat → PollResponses) :
    Nat → WatchState → List (List Char) → List Nat → Nat → WatchResult
  | 0, _, accPrints, accSleeps, polls =>
    -- lines 1076 to 1077: budget exhausted, return false
    ⟨false, .timeout, polls, accPrints, accSleeps⟩
  | fuel + 1, s, accPrints, accSleeps, polls =>
    let c := watchStep s (resp s.attempt)
    match c.next with
    | .ret v reason => ⟨v, reason, polls + 1, accPrints ++ c.printed, accSleeps⟩
    | .cont s1 =>
      watchAux resp fuel s1 (accPrints ++ c.printed) (accSleeps ++ [2]) (polls + 1)

/-- `watchDeployment` (cmd/deploy.go lines 929 to 1078): polls the
deployment status, streams build logs, and returns true when the deployment
succeeded, false when it failed. -/
def watchDeployment (resp : Nat → PollResponses) : WatchResult :=
  watchAux resp maxAttempts initialWatchState [] [] 0

/-! ## Control-plane error shape and the environment resolver -/

/-- An error as seen by the callers of the api client: either an
`api.APIError` carrying the HTTP status code, or a transport-level error
(which is not an `APIError`, so the type assertion in `IsConflict` fails on
it). -/
inductive ApiErr where
  | api (statusCode : Nat) (message : String)
  | transport
deriving DecidableEq, Repr

/-- `api.IsConflict` (internal/api client, lines 32 to 38): true exactly
when the error is an APIError with status code 409. -/
def IsConflict : ApiErr → Bool
  | .api statusCode _ => statusCode = 409
  | .transport => false

/-- An environment entry of a fetched project: name and UUID. -/
structure EnvInfo where
  name : String
  uuid : String
deriving DecidableEq, Repr

/-- The scan over `project.Environments` at cmd/deploy.go lines 272 to 279:
the loop has no break, so the LAST case-insensitive name match wins.
`target` is already lowercase in the source ("preview" or "production"). -/
def scanEnvLast (target : String) (envs : List EnvInfo) : String :=
  envs.foldl (fun acc e => if strToLower e.name = target then e.uuid else acc) ""

/-- The scan in the conflict-recovery branch (lines 288 to 293): this loop
breaks on the first case-insensitive name match. -/
def scanEnvFirst (target : String) : List EnvInfo → String
  | [] => ""
  | e :: rest => if strToLower e.name = target then e.uuid else scanEnvFirst target rest

/-- Control-plane calls the environment resolver can issue. -/
inductive ResolverCall where
  | createEnvironment (name : String)
  | getProject
deriving DecidableEq, Repr

/-- Embeds cmd/deploy.go lines 281 to 302 for one environment named
`target` (the production copy at lines 303 to 323 is textually identical).
`initialUUID` is the value obtained by scanning the already-fetched
project; `create` is the answer the control plane would give to the
CreateEnvironment call and `refetch` the answer to the GetProject re-fetch
issued in the conflict branch.  Returns the trace of calls issued and
either the resolved environment UUID or the error returned to the caller. -/
def ensureEnvironment (target : String) (initialUUID : String)
    (create : Except ApiErr String) (refetch : Except ApiErr (List EnvInfo)) :
    List ResolverCall × Except ApiErr String :=
  if initialUUID = "" then
    match create with
    | .ok uuid => ([.createEnvironment target], .ok uuid)
    | .error e =>
      let found :=
        if IsConflict e then
          match refetch with
          | .ok envs => scanEnvFirst target envs
          | .error _ => ""
        else ""
      let calls :=
        if IsConflict e then [ResolverCall.createEnvironment target, .getProject]
        else [ResolverCall.createEnvironment target]
      if found = "" then (calls, .error e) else (calls, .ok found)
  else ([], .ok initialUUID)

/-! ## Dispatcher: create-or-deploy decision and deploy triggering -/

/-- Side-effecting calls of the dispatch step, plus the git push.  For the
two application-create calls the flag records the InstantDeploy field of
the request; for `gitPush` the flag records whether a new commit reached
the remote (in which case the control-plane webhook starts a deployment,
per the comments at internal/deploy git path lines 324 to 336). -/
inductive DeployCall where
  | createDockerApp (instantDeploy : Bool)
  | createGitApp (instantDeploy : Bool)
  | updateApplication
  | deployTrigger
  | gitPush (newCommit : Bool)
deriving DecidableEq, Repr

/-- Is the call an application-create call? -/
def isCreateCall : DeployCall → Bool
  | .createDockerApp _ => true
  | .createGitApp _ => true
  | _ => false

/-- How many deployments a trace of calls starts: an application created
with InstantDeploy set deploys immediately, an explicit Deploy call
triggers one, and a push carrying a new commit fires the webhook. -/
def deployInitiations (trace : List DeployCall) : Nat :=
  trace.countP fun c =>
    match c with
    | .createDockerApp instantDeploy => instantDeploy
    | .createGitApp instantDeploy => instantDeploy
    | .deployTrigger => true
    | .gitPush newCommit => newCommit
    | _ => false

/-- The create-or-update section of `deployDocker`
(cmd/deploy.go lines 573 to 622): look up the application UUID recorded for
`env` in the AppUUIDs map of the project config; when absent, create the
application with InstantDeploy true and record the new UUID; when present,
update the image tag and trigger a deploy.  Returns the trace of calls, the
resulting AppUUIDs map, and the application UUID or the error aborting the
dispatcher. -/
def deployDockerApps (appUUIDs : List (String × String)) (env : String)
    (createResp : Except ApiErr String)
    (updateResp : Except ApiErr Unit) (deployResp : Except ApiErr Unit) :
    List DeployCall × List (String × String) × Except ApiErr String :=
  match appUUIDs.lookup env with
  | none =>
    match createResp with
    | .ok newUUID => ([.createDockerApp true], (env, newUUID) :: appUUIDs, .ok newUUID)
    | .error e => ([.createDockerApp true], appUUIDs, .error e)
  | some appUUID =>
    match updateResp with
    | .error e => ([.updateApplication], appUUIDs, .error e)
    | .ok _ =>
      match deployResp with
      | .error e => ([.updateApplication, .deployTrigger], appUUIDs, .error e)
      | .ok _ => ([.updateApplication, .deployTrigger], appUUIDs, .ok appUUID)

/-- The create-or-deploy section of `deployGit`
(cmd/deploy.go lines 827 to 891): when no application UUID is recorded for
`env`, create the GitHub application with InstantDeploy true; otherwise
trigger a deploy of the recorded application. -/
def deployGitApps (appUUIDs : List (String × String)) (env : String)
    (createResp : Except ApiErr String) (deployResp : Except ApiErr Unit) :
    List DeployCall × List (String × String) × Except ApiErr String :=
  match appUUIDs.lookup env with
  | none =>
    match createResp with
    | .ok newUUID => ([.createGitApp true], (env, newUUID) :: appUUIDs, .ok newUUID)
    | .error e => ([.createGitApp true], appUUIDs, .error e)
  | some appUUID =>
    match deployResp with
    | .error e => ([.deployTrigger], appUUIDs, .error e)
    | .ok _ => ([.deployTrigger], appUUIDs, .ok appUUID)

/-- Task tags of the newer git dispatcher (internal/deploy,
`buildGitDeploymentTasks`). -/
inductive GitTask where
  | createProject
  | setupEnvironment
  | checkEnvironment
  | createGitHubRepo
  | initGit
  | createApp
  | pushAndDeploy
deriving DecidableEq, Repr

/-- `buildGitDeploymentTasks` (internal/deploy, lines 203 to 243): which
tasks are queued for one invocation, as a function of the recorded project
UUID, the recorded application UUID, whether the GitHub repository must be
created, and whether the working directory already is a git repository. -/
def buildGitDeploymentTasks (projectUUID appUUID : String)
    (needsRepoCreation isGitRepo : Bool) : List GitTask :=
  (if projectUUID = "" then [GitTask.createProject, .setupEnvironment]
   else [GitTask.checkEnvironment])
  ++ (if needsRepoCreation then [GitTask.createGitHubRepo] else [])
  ++ (if isGitRepo then [] else [GitTask.initGit])
  ++ (if appUUID = "" then [GitTask.createApp] else [])
  ++ [GitTask.pushAndDeploy]

/-- The calls issued by the action of `createGitAppTask` (internal/deploy,
lines 343 to 412): one CreatePrivateGitHubApp request with InstantDeploy
hard-coded to false. -/
def createGitAppCalls : List DeployCall := [.createGitApp false]

/-- The action of `pushAndDeployTask` (internal/deploy, lines 289 to 341):
push to GitHub (the webhook starts a deployment exactly when a new commit
was pushed), and call Deploy manually only when there were no local
changes, because the webhook does not fire then.  `hadChanges` is
`git.HasChanges` evaluated before the auto-commit; a failed push fires no
webhook and aborts the task. -/
def pushAndDeployCalls (hadChanges : Bool) (pushOk : Bool)
    (deployResp : Except ApiErr Unit) : List DeployCall × Except ApiErr Unit :=
  if pushOk = false then ([.gitPush false], .error .transport)
  else if hadChanges = false then
    match deployResp with
    | .ok _ => ([.gitPush false, .deployTrigger], .ok ())
    | .error e => ([.gitPush false, .deployTrigger], .error e)
  else ([.gitPush true], .ok ())

/-! ## Auxiliary notions used by the statements and proofs about logs -/

/-- A poll cycle in which the list shows one tracked deployment with
canonical UUID `u` and a non-terminal status, and the detail fetch succeeds
with a non-terminal status and parsed log blob `b`. -/
def mkLogCycle (u : String) (b : List Char) : PollResponses :=
  ⟨.ok [⟨u, u, "queued"⟩], .ok "in_progress" b, .fail⟩

/-- The pieces the incremental log printer emits for a sequence of blobs
when the read offset currently is `offset`: the suffix past the offset
whenever the blob is longer, with the offset advanced to the blob length
(proof-side description of the effect of lines 1041 to 1048 across
cycles). -/
def printsFrom (offset : Nat) : List (List Char) → List (List Char)
  | [] => []
  | b :: bs =>
    (if offset < b.length then [b.drop offset] else []) ++ printsFrom (max offset b.length) bs

/-! ## Theorems -/

/-- One-step unfolding of the loop: a cycle that returns. -/
theorem watchAux_ret (resp : Nat → PollResponses) (fuel : Nat) (s : WatchState)
    (aP : List (List Char)) (aS : List Nat) (p : Nat)
    (printed : List (List Char)) (v : Bool) (reason : ExitReason)
    (h : watchStep s (resp s.attempt) = ⟨printed, .ret v reason⟩) :
    watchAux resp (fuel + 1) s aP aS p = ⟨v, reason, p + 1, aP ++ printed, aS⟩ := by
  simp only [watchAux, h]

/-- One-step unfolding of the loop: a cycle that continues. -/
theorem watchAux_cont (resp : Nat → PollResponses) (fuel : Nat) (s s2 : WatchState)
    (aP : List (List Char)) (aS : List Nat) (p : Nat) (printed : List (List Char))
    (h : watchStep s (resp s.attempt) = ⟨printed, .cont s2⟩) :
    watchAux resp (fuel + 1) s aP aS p
      = watchAux resp fuel s2 (aP ++ printed) (aS ++ [2]) (p + 1) := by
  simp only [watchAux, h]

/-- C5: for the poll-response sequence whose first poll lists one
deployment with status "running" (detail also non-terminal) and whose next
three polls return an empty list, with the application status fetched as
"exited" in the empty-streak fallback, the watcher returns the failure
verdict (on the fourth poll, through the application-status return site). -/
theorem watch_running_then_empties_exited_fails :
    (watchDeployment fun i =>
      if i = 0 then ⟨.ok [⟨"u1", "d1", "running"⟩], .ok "running" [], .fail⟩
      else ⟨.ok [], .fail, .ok "exited"⟩)
    = ⟨false, .appStatusBad "exited", 4, [], [2, 2, 2]⟩ := by
  rfl

/-- C1 counterexample: in a cycle where the detail fetch succeeds with the
non-terminal status "running" while the list-level status of the latest
deployment is "failed", the watcher returns the failure verdict in that
very cycle (first poll, list-status return site), contradicting the claim
that the verdict must not be failure then. -/
theorem watch_detail_running_list_failed_returns_failure :
    (watchDeployment fun _ => ⟨.ok [⟨"u1", "d1", "failed"⟩], .ok "running" [], .fail⟩)
    = ⟨false, .listTerminal "failed", 1, [], []⟩ := by
  rfl

/-- C1 amended: the list-level classification runs in every non-empty
cycle, not only when the detail fetch fails.  Hence when the detail status
is the non-terminal "running" and the list status is "failed", the watcher
returns failure in that same cycle through the list-status return site;
and when the detail status is "failed" it returns failure immediately
through the detail-status return site, whatever the list status says. -/
theorem watchStep_terminal_precedence (s : WatchState) (latest : DeploymentItem)
    (rest : List DeploymentItem) (st : String) (logs : List Char) (a : AppResp) :
    (strToLower st = "running" → strToLower latest.status = "failed" →
      (watchStep s ⟨.ok (latest :: rest), .ok st logs, a⟩).next
        = .ret false (.listTerminal "failed"))
    ∧ (strToLower st = "failed" →
      (watchStep s ⟨.ok (latest :: rest), .ok st logs, a⟩).next
        = .ret false (.detailTerminal "failed")) := by
  constructor
  · intro h1 h2
    simp only [watchStep, h1, h2, listClassify, isTerminalFailureStatus]
    split <;> split <;> simp_all
  · intro h1
    simp only [watchStep, h1, listClassify, isTerminalFailureStatus]
    split <;> split <;> simp_all

/-- C1 amended, witness. -/
theorem watchStep_terminal_precedence_witness :
    (watchStep initialWatchState
        ⟨.ok [⟨"u1", "d1", "failed"⟩], .ok "running" [], .fail⟩).next
      = .ret false (.listTerminal "failed")
    ∧ (watchStep initialWatchState
        ⟨.ok [⟨"u1", "d1", "running"⟩], .ok "failed" [], .fail⟩).next
      = .ret false (.detailTerminal "failed") :=
  ⟨(watchStep_terminal_precedence initialWatchState ⟨"u1", "d1", "failed"⟩ [] "running" []
      .fail).1 (by decide) (by decide),
   (watchStep_terminal_precedence initialWatchState ⟨"u1", "d1", "running"⟩ [] "failed" []
      .fail).2 (by decide)⟩

/-- C2 counterexample: on the docker path with no application UUID
recorded, the application is created with InstantDeploy true — not with
deploy-on-create disabled — and no explicit deploy-trigger call is issued
afterwards. -/
theorem deployDocker_fresh_creates_with_instant_deploy :
    (deployDockerApps [] "preview" (.ok "app-1") (.ok ()) (.ok ())).1
      = [.createDockerApp true]
    ∧ DeployCall.deployTrigger
        ∉ (deployDockerApps [] "preview" (.ok "app-1") (.ok ()) (.ok ())).1
    ∧ DeployCall.createDockerApp false
        ∉ (deployDockerApps [] "preview" (.ok "app-1") (.ok ()) (.ok ())).1 :=
  ⟨rfl, by decide, by decide⟩

/-- C2 amended: in the docker path (and the cmd git path) a missing
application is created with InstantDeploy set, so the creation itself
starts the deploy and no explicit trigger call follows, while for an
existing application exactly one explicit Deploy call is made; in the
internal git path a missing application is created with deploy-on-create
disabled and the deploy is started by the push webhook when a new commit
was pushed, with an explicit Deploy call only when there were no changes.
In every successful invocation exactly one deploy is initiated — never
zero, never two. -/
theorem dispatcher_exactly_one_deploy_initiation
    (appUUIDs : List (String × String)) (env newUUID : String) (hadChanges : Bool) :
    deployInitiations (deployDockerApps appUUIDs env (.ok newUUID) (.ok ()) (.ok ())).1 = 1
    ∧ deployInitiations (deployGitApps appUUIDs env (.ok newUUID) (.ok ())).1 = 1
    ∧ deployInitiations
        (createGitAppCalls ++ (pushAndDeployCalls hadChanges true (.ok ())).1) = 1 := by
  refine ⟨?_, ?_, ?_⟩
  · cases h : appUUIDs.lookup env <;>
      simp [deployDockerApps, h, deployInitiations]
  · cases h : appUUIDs.lookup env <;>
      simp [deployGitApps, h, deployInitiations]
  · cases hadChanges <;> simp [createGitAppCalls, pushAndDeployCalls, deployInitiations]

/-- C2 amended, witness. -/
theorem dispatcher_exactly_one_deploy_initiation_witness :
    deployInitiations
      (deployDockerApps [("preview", "app-9")] "preview" (.ok "n") (.ok ()) (.ok ())).1 = 1 :=
  (dispatcher_exactly_one_deploy_initiation [("preview", "app-9")] "preview" "n" true).1

/-- C3: when the environment-create call fails with a 409 Conflict, the
resolver re-fetches the project and ends with the environment UUID already
present remotely (first case-insensitive name match of the re-fetched
list) whenever that UUID is non-empty, and with the original error when no
matching environment is found; and for every combination of inputs the
resolver issues at most one environment-create call for the environment. -/
theorem ensureEnvironment_conflict_converges (target : String) (e : ApiErr)
    (envs : List EnvInfo) (hconf : IsConflict e = true) :
    (scanEnvFirst target envs ≠ "" →
      ensureEnvironment target "" (.error e) (.ok envs)
        = ([.createEnvironment target, .getProject], .ok (scanEnvFirst target envs)))
    ∧ (scanEnvFirst target envs = "" →
      ensureEnvironment target "" (.error e) (.ok envs)
        = ([.createEnvironment target, .getProject], .error e))
    ∧ ∀ initialUUID create refetch,
        ((ensureEnvironment target initialUUID create refetch).1.count
          (ResolverCall.createEnvironment target)) ≤ 1 := by
  refine ⟨?_, ?_, ?_⟩
  · intro h
    simp [ensureEnvironment, hconf, h]
  · intro h
    simp [ensureEnvironment, hconf, h]
  · intro initialUUID create refetch
    unfold ensureEnvironment
    split
    · rcases create with e1 | u1
      · simp only [IsConflict]
        split <;> split <;> simp [List.count_cons, List.count_nil]
      · simp [List.count_cons, List.count_nil]
    · simp

/-- C3, witness. -/
theorem ensureEnvironment_conflict_converges_witness :
    ensureEnvironment "production" "" (.error (.api 409 "already exists"))
        (.ok [⟨"staging", "env-1"⟩, ⟨"Production", "env-7"⟩])
      = ([.createEnvironment "production", .getProject], .ok "env-7") :=
  (ensureEnvironment_conflict_converges "production" (.api 409 "already exists")
      [⟨"staging", "env-1"⟩, ⟨"Production", "env-7"⟩] (by decide)).1 (by decide)

/-- C9: whenever an application UUID is already recorded for the target
environment, a deploy invocation issues no application-create call on any
path: the docker path and the cmd git path reuse the recorded UUID, leave
the AppUUIDs map unchanged, and (once the preceding call succeeds) trigger
a deploy of that application; the internal git path never queues the
create-application task and always queues the push-and-deploy task. -/
theorem recorded_app_uuid_reused (appUUIDs : List (String × String)) (env u : String)
    (hlook : appUUIDs.lookup env = some u)
    (c : Except ApiErr String) (ur dr : Except ApiErr Unit)
    (projectUUID appUUID : String) (hap : appUUID ≠ "") (nrc ig : Bool) :
    ((deployDockerApps appUUIDs env c ur dr).1.countP (isCreateCall ·) = 0
      ∧ (deployDockerApps appUUIDs env c ur dr).2.1 = appUUIDs
      ∧ (ur = .ok () → DeployCall.deployTrigger ∈ (deployDockerApps appUUIDs env c ur dr).1)
      ∧ ∀ v, (deployDockerApps appUUIDs env c ur dr).2.2 = .ok v → v = u)
    ∧ ((deployGitApps appUUIDs env c dr).1.countP (isCreateCall ·) = 0
      ∧ (deployGitApps appUUIDs env c dr).2.1 = appUUIDs
      ∧ DeployCall.deployTrigger ∈ (deployGitApps appUUIDs env c dr).1
      ∧ ∀ v, (deployGitApps appUUIDs env c dr).2.2 = .ok v → v = u)
    ∧ (GitTask.createApp ∉ buildGitDeploymentTasks projectUUID appUUID nrc ig
      ∧ GitTask.pushAndDeploy ∈ buildGitDeploymentTasks projectUUID appUUID nrc ig) := by
  refine ⟨?_, ?_, ?_⟩
  · rcases ur with e1 | u1
    · simp [deployDockerApps, hlook, isCreateCall]
    · rcases dr with e2 | u2 <;> simp [deployDockerApps, hlook, isCreateCall]
  · rcases dr with e2 | u2 <;> simp [deployGitApps, hlook, isCreateCall]
  · constructor
    · simp only [buildGitDeploymentTasks, hap]
      split <;> split <;> simp [hap]
    · simp only [buildGitDeploymentTasks]
      split <;> split <;> split <;> simp

/-- C9, witness. -/
theorem recorded_app_uuid_reused_witness :
    (deployDockerApps [("preview", "app-9")] "preview" (.ok "n") (.ok ()) (.ok ())).1.countP
        (isCreateCall ·) = 0
    ∧ GitTask.createApp ∉ buildGitDeploymentTasks "proj-1" "app-9" false true :=
  ⟨(recorded_app_uuid_reused [("preview", "app-9")] "preview" "app-9" (by decide)
      (.ok "n") (.ok ()) (.ok ()) "proj-1" "app-9" (by decide) false true).1.1,
   (recorded_app_uuid_reused [("preview", "app-9")] "preview" "app-9" (by decide)
      (.ok "n") (.ok ()) (.ok ()) "proj-1" "app-9" (by decide) false true).2.2.1⟩

/-- C10: in the empty-streak fallback (a deployment had been observed and
the list has now been empty on at least three consecutive polls), the
watcher returns failure exactly when the fetched application status is,
lowercased, one of exited, error, failed; when the application fetch
itself errors, or the status is anything else (running, starting, ...),
it returns success. -/
theorem watch_empty_streak_fallback (s : WatchState) (d : DetailResp) (a : AppResp)
    (hhad : s.hadDeployment = true) (hemp : 2 ≤ s.emptyCount) :
    (a = .fail → (watchStep s ⟨.ok [], d, a⟩).next = .ret true .appCheckError)
    ∧ ∀ st, a = .ok st →
        (isBadAppStatus (strToLower st) = true →
          (watchStep s ⟨.ok [], d, a⟩).next = .ret false (.appStatusBad (strToLower st)))
        ∧ (isBadAppStatus (strToLower st) = false →
          ∃ reason, (watchStep s ⟨.ok [], d, a⟩).next = .ret true reason) := by
  have hc : s.hadDeployment = true ∧ 3 ≤ s.emptyCount + 1 := ⟨hhad, by omega⟩
  constructor
  · intro ha
    simp [watchStep, ha, hc]
  · intro st ha
    constructor
    · intro hbad
      have hrun : ¬ strToLower st = "running" := by
        intro hr
        rw [hr] at hbad
        exact absurd hbad (by decide)
      simp [watchStep, ha, hc, hrun, hbad]
    · intro hgood
      by_cases hrun : strToLower st = "running"
      · exact ⟨.appRunning, by simp [watchStep, ha, hc, hrun]⟩
      · exact ⟨.appAssumeSuccess, by simp [watchStep, ha, hc, hrun, hgood]⟩

/-- C10, witness. -/
theorem watch_empty_streak_fallback_witness :
    (watchStep ⟨5, 0, "d1", true, 2⟩ ⟨.ok [], .fail, .ok "Exited"⟩).next
      = .ret false (.appStatusBad "exited") :=
  ((watch_empty_streak_fallback ⟨5, 0, "d1", true, 2⟩ .fail (.ok "Exited")
      (by decide) (by decide)).2 "Exited" rfl).1 (by decide)

/-- The loop body never exits through the timeout site: `timeout` is
reserved for fuel exhaustion. -/
theorem watchStep_no_timeout (s : WatchState) (r : PollResponses) (v : Bool) :
    (watchStep s r).next ≠ CycleNext.ret v .timeout := by
  rcases r with ⟨list, detail, app⟩
  cases list with
  | fail => simp [watchStep]
  | ok ds =>
    cases ds with
    | nil =>
      cases app <;> simp only [watchStep] <;> split_ifs <;> simp
    | cons latest rest =>
      cases detail <;> simp only [watchStep, listClassify] <;> split_ifs <;> simp

/-- The number of polls grows by at most the remaining fuel. -/
theorem watchAux_polls_le (resp : Nat → PollResponses) :
    ∀ (fuel : Nat) (s : WatchState) (aP : List (List Char)) (aS : List Nat) (p : Nat),
      (watchAux resp fuel s aP aS p).polls ≤ p + fuel := by
  intro fuel
  induction fuel with
  | zero => intro s aP aS p; exact Nat.le_refl _
  | succ n ih =>
    intro s aP aS p
    simp only [watchAux]
    split
    · show p + 1 ≤ p + (n + 1)
      omega
    · calc (watchAux resp n _ _ _ (p + 1)).polls ≤ (p + 1) + n := ih _ _ _ _
        _ ≤ p + (n + 1) := by omega

/-- Every sleep performed by the loop lasts exactly 2 seconds, and there
are at most as many sleeps as fuel. -/
theorem watchAux_sleeps (resp : Nat → PollResponses) :
    ∀ (fuel : Nat) (s : WatchState) (aP : List (List Char)) (aS : List Nat) (p : Nat),
      (watchAux resp fuel s aP aS p).sleeps.length ≤ aS.length + fuel
      ∧ ∀ x ∈ (watchAux resp fuel s aP aS p).sleeps, x ∈ aS ∨ x = 2 := by
  intro fuel
  induction fuel with
  | zero =>
    intro s aP aS p
    exact ⟨Nat.le_refl _, fun x hx => Or.inl hx⟩
  | succ n ih =>
    intro s aP aS p
    simp only [watchAux]
    split
    · constructor
      · show aS.length ≤ aS.length + (n + 1)
        omega
      · intro x hx
        exact Or.inl hx
    · constructor
      · calc (watchAux resp n _ _ (aS ++ [2]) (p + 1)).sleeps.length
              ≤ (aS ++ [2]).length + n := (ih _ _ _ _).1
          _ = aS.length + (n + 1) := by
              simp only [List.length_append, List.length_cons, List.length_nil]
              omega
      · intro x hx
        rcases (ih _ _ (aS ++ [2]) (p + 1)).2 x hx with h | h
        · rcases List.mem_append.mp h with h | h
          · exact Or.inl h
          · right
            simpa using h
        · exact Or.inr h

/-- A run whose reason is the timeout site carries the failure verdict. -/
theorem watchAux_timeout_false (resp : Nat → PollResponses) :
    ∀ (fuel : Nat) (s : WatchState) (aP : List (List Char)) (aS : List Nat) (p : Nat),
      (watchAux resp fuel s aP aS p).reason = .timeout →
      (watchAux resp fuel s aP aS p).verdict = false := by
  intro fuel
  induction fuel with
  | zero => intro s aP aS p _; rfl
  | succ n ih =>
    intro s aP aS p
    simp only [watchAux]
    split
    · rename_i v reason hstep
      intro hr
      simp only at hr
      subst hr
      exact absurd hstep (watchStep_no_timeout _ _ _)
    · exact ih _ _ _ _

/-- C4: for every sequence of poll responses the watcher terminates with a
verdict after at most 120 polls, every sleep between polls lasts exactly 2
seconds (so there is no exponential backoff and at most 120 fixed-length
sleeps are performed), and when the attempt budget is exhausted without a
terminal classification the verdict is failure. -/
theorem watchDeployment_bounded (resp : Nat → PollResponses) :
    (watchDeployment resp).polls ≤ maxAttempts
    ∧ (watchDeployment resp).sleeps.length ≤ maxAttempts
    ∧ (∀ d ∈ (watchDeployment resp).sleeps, d = 2)
    ∧ ((watchDeployment resp).reason = .timeout → (watchDeployment resp).verdict = false) := by
  refine ⟨?_, ?_, ?_, ?_⟩
  · simpa [watchDeployment] using
      watchAux_polls_le resp maxAttempts initialWatchState [] [] 0
  · simpa [watchDeployment] using
      (watchAux_sleeps resp maxAttempts initialWatchState [] [] 0).1
  · intro d hd
    rcases (watchAux_sleeps resp maxAttempts initialWatchState [] [] 0).2 d hd with h | h
    · simp at h
    · exact h
  · exact watchAux_timeout_false resp maxAttempts initialWatchState [] [] 0

/-- C4, witness. -/
theorem watchDeployment_bounded_witness :
    (watchDeployment fun _ => ⟨.fail, .fail, .fail⟩).polls ≤ maxAttempts :=
  (watchDeployment_bounded fun _ => ⟨.fail, .fail, .fail⟩).1

/-- From a state that has never seen a deployment, with `n` more polls
until attempt reaches 15 and the list empty on every poll up to 15, the
loop exits through the no-deployment-found site. -/
theorem watchAux_never_seen (resp : Nat → PollResponses)
    (hresp : ∀ i, i ≤ 15 → (resp i).list = .ok []) :
    ∀ (n m : Nat) (s : WatchState), s.attempt + n = 15 → s.hadDeployment = false →
      ∀ (aP : List (List Char)) (aS : List Nat) (p : Nat),
        watchAux resp (n + (m + 1)) s aP aS p
          = ⟨false, .noDeploymentFound, p + n + 1, aP, aS ++ List.replicate n 2⟩ := by
  intro n
  induction n with
  | zero =>
    intro m s hat hhad aP aS p
    have hstep : watchStep s (resp s.attempt)
        = ⟨[], .ret false .noDeploymentFound⟩ := by
      simp only [watchStep, hresp s.attempt (by omega), hhad]
      have h15 : (15 : Nat) ≤ s.attempt := by omega
      simp [h15]
    rw [Nat.zero_add, watchAux_ret resp m s aP aS p [] false .noDeploymentFound hstep]
    simp
  | succ n ih =>
    intro m s hat hhad aP aS p
    have hstep : watchStep s (resp s.attempt)
        = ⟨[], .cont { s with emptyCount := s.emptyCount + 1, attempt := s.attempt + 1 }⟩ := by
      simp only [watchStep, hresp s.attempt (by omega), hhad]
      have h15 : ¬ (15 : Nat) ≤ s.attempt := by omega
      simp [h15]
    rw [show (n + 1) + (m + 1) = (n + (m + 1)) + 1 by omega,
      watchAux_cont resp (n + (m + 1)) s _ aP aS p [] hstep,
      ih m { s with emptyCount := s.emptyCount + 1, attempt := s.attempt + 1 }
        (by simp; omega) (by simp [hhad]) (aP ++ []) (aS ++ [2]) (p + 1)]
    simp [List.replicate_succ]
    omega

/-- C6: in a run whose polls all return an empty deployment list (so no
deployment is ever observed and the list is empty on 15 consecutive
polls), the watcher returns failure through the dedicated
no-deployment-found return site — a classification distinct from the
remote-failure sites and from the 120-attempt timeout site — after its
16th poll. -/
theorem watchDeployment_no_deployment_found (resp : Nat → PollResponses)
    (hresp : ∀ i, i ≤ 15 → (resp i).list = .ok []) :
    watchDeployment resp
      = ⟨false, .noDeploymentFound, 16, [], List.replicate 15 2⟩ := by
  have h := watchAux_never_seen resp hresp 15 104 initialWatchState rfl rfl [] [] 0
  simpa [watchDeployment, maxAttempts] using h

/-- C6, witness. -/
theorem watchDeployment_no_deployment_found_witness :
    watchDeployment (fun _ => ⟨.ok [], .fail, .fail⟩)
      = ⟨false, .noDeploymentFound, 16, [], List.replicate 15 2⟩ :=
  watchDeployment_no_deployment_found (fun _ => ⟨.ok [], .fail, .fail⟩) (fun _ _ => rfl)

/-- A failing list call only advances the attempt counter, so `n`
consecutive transport errors skip `n` polls without touching any other
loop variable. -/
theorem watchAux_skip_transport (resp : Nat → PollResponses) (k : Nat)
    (herr : ∀ i, i < k → (resp i).list = .fail) :
    ∀ (n m : Nat) (s : WatchState), s.attempt + n = k →
      ∀ (aP : List (List Char)) (aS : List Nat) (p : Nat),
        watchAux resp (m + n) s aP aS p
          = watchAux resp m { s with attempt := k } aP (aS ++ List.replicate n 2) (p + n) := by
  intro n
  induction n with
  | zero =>
    intro m s hat aP aS p
    have hs : { s with attempt := k } = s := by
      cases s
      simp_all
    rw [hs]
    simp
  | succ n ih =>
    intro m s hat aP aS p
    have hstep : watchStep s (resp s.attempt)
        = ⟨[], .cont { s with attempt := s.attempt + 1 }⟩ := by
      simp only [watchStep, herr s.attempt (by omega)]
    rw [show m + (n + 1) = (m + n) + 1 by omega,
      watchAux_cont resp (m + n) s _ aP aS p [] hstep,
      ih m { s with attempt := s.attempt + 1 } (by simp; omega) (aP ++ []) (aS ++ [2]) (p + 1)]
    rw [List.append_nil, show p + 1 + n = p + (n + 1) from by omega, List.append_assoc]
    rfl

/-- C8 counterexample: a run consisting only of transport errors consumes
the full 120-attempt budget and ends at the timeout site — there is no
early abandonment after a small number of consecutive transport
failures. -/
theorem watch_transport_errors_consume_full_budget :
    watchDeployment (fun _ => ⟨.fail, .fail, .fail⟩)
      = ⟨false, .timeout, maxAttempts, [], List.replicate maxAttempts 2⟩ := by
  have h := watchAux_skip_transport (fun _ => ⟨.fail, .fail, .fail⟩) maxAttempts
    (fun _ _ => rfl) maxAttempts 0 initialWatchState (by simp [initialWatchState]) [] [] 0
  rw [watchDeployment, show maxAttempts = 0 + maxAttempts from by omega, h]
  simp [watchAux]

/-- C8 amended: transport-level errors of the deployment-list call are
retried within the shared 120-attempt budget (one 2-second sleep and one
increment of the shared attempt counter each); there is no separate
consecutive-transport-failure counter and no early abandonment: any number
k < 120 of consecutive transport errors followed by a poll that reports a
finished deployment still yields the success verdict, on poll k + 1. -/
theorem watchDeployment_transport_errors_retried (resp : Nat → PollResponses) (k : Nat)
    (hk : k < maxAttempts)
    (herr : ∀ i, i < k → (resp i).list = .fail)
    (hfin : resp k = ⟨.ok [⟨"u1", "d1", "running"⟩], .ok "finished" [], .fail⟩) :
    watchDeployment resp
      = ⟨true, .detailFinished, k + 1, [], List.replicate k 2⟩ := by
  have hstep : watchStep { initialWatchState with attempt := k } (resp k)
      = ⟨[], .ret true .detailFinished⟩ := by
    rw [hfin]
    rfl
  have h120 : maxAttempts = ((maxAttempts - k - 1) + 1) + k := by
    unfold maxAttempts
    unfold maxAttempts at hk
    omega
  rw [watchDeployment, h120,
    watchAux_skip_transport resp k herr k ((maxAttempts - k - 1) + 1) initialWatchState
      (by simp [initialWatchState]) [] [] 0,
    watchAux_ret resp (maxAttempts - k - 1) { initialWatchState with attempt := k }
      [] ([] ++ List.replicate k 2) (0 + k) [] true .detailFinished hstep]
  simp

/-- C8 amended, witness. -/
theorem watchDeployment_transport_errors_retried_witness :
    watchDeployment (fun i =>
      if i < 20 then ⟨.fail, .fail, .fail⟩
      else ⟨.ok [⟨"u1", "d1", "running"⟩], .ok "finished" [], .fail⟩)
      = ⟨true, .detailFinished, 21, [], List.replicate 20 2⟩ :=
  watchDeployment_transport_errors_retried _ 20 (by decide)
    (fun i hi => by simp [hi]) (by simp)

/-- In a chain of prefix-extensions, the head is a prefix of the last
element. -/
theorem chain_prefix_getLastD (b : List Char) (bs : List (List Char))
    (h : List.Chain' (· <+: ·) (b :: bs)) : b <+: (b :: bs).getLastD [] := by
  induction bs generalizing b with
  | nil => simp
  | cons b2 bs ih =>
    rcases List.chain'_cons.mp h with ⟨h1, h2⟩
    have := ih b2 h2
    simpa [List.getLastD_cons] using h1.trans this

/-- Concatenating the printed pieces of a cumulative blob chain recovers
exactly the suffix of the final blob past the starting offset: nothing is
reprinted and nothing is skipped. -/
theorem printsFrom_flatten :
    ∀ (bs : List (List Char)) (offset : Nat), List.Chain' (· <+: ·) bs →
      (printsFrom offset bs).flatten = (bs.getLastD []).drop offset
  | [], offset, _ => by simp [printsFrom]
  | [b], offset, _ => by
    by_cases h : offset < b.length
    · simp [printsFrom, h]
    · have hge : b.length ≤ offset := Nat.le_of_not_lt h
      simp [printsFrom, h, List.drop_eq_nil_of_le hge]
  | b :: b2 :: bs, offset, hc => by
    have h12 : b <+: b2 := (List.chain'_cons.mp hc).1
    have htail : List.Chain' (· <+: ·) (b2 :: bs) := (List.chain'_cons.mp hc).2
    have ih := printsFrom_flatten (b2 :: bs) (max offset b.length) htail
    have hlast : b <+: (b2 :: bs).getLastD [] :=
      h12.trans (chain_prefix_getLastD b2 bs htail)
    rcases hlast with ⟨t, ht⟩
    by_cases h : offset < b.length
    · have hmax : max offset b.length = b.length := Nat.max_eq_right (Nat.le_of_lt h)
      simp only [List.getLastD_cons] at ih ht ⊢
      rw [printsFrom, if_pos h, List.flatten_append, ih, hmax]
      simp only [List.flatten_cons, List.flatten_nil, List.append_nil]
      rw [← ht, List.drop_append_of_le_length (Nat.le_of_lt h),
        List.drop_append_of_le_length (Nat.le_refl _)]
      simp
    · have hmax : max offset b.length = offset := Nat.max_eq_left (Nat.le_of_not_lt h)
      simp only [List.getLastD_cons] at ih ⊢
      rw [printsFrom, if_neg h, List.nil_append, ih, hmax]

/-- A cycle of `mkLogCycle` prints exactly the unseen suffix of the blob
and continues with the offset advanced to the blob length, whenever the
tracked UUID already matches or the offset is still zero. -/
theorem watchStep_mkLogCycle (s : WatchState) (u : String) (b : List Char)
    (h : s.lastDeploymentUUID = u ∨ s.lastLogLen = 0) :
    watchStep s (mkLogCycle u b)
      = ⟨if s.lastLogLen < b.length then [b.drop s.lastLogLen] else [],
         .cont ⟨s.attempt + 1, max s.lastLogLen b.length, u, true, 0⟩⟩ := by
  have hcan : canonicalUUID ⟨u, u, "queued"⟩ = u := by
    unfold canonicalUUID
    split <;> rfl
  have hst1 : ¬ strToLower "in_progress" = "finished" := by decide
  have hst2 : isTerminalFailureStatus (strToLower "in_progress") = false := by decide
  have hst3 : ¬ strToLower "queued" = "finished" := by decide
  have hst4 : isTerminalFailureStatus (strToLower "queued") = false := by decide
  simp only [watchStep, mkLogCycle, hcan, listClassify, hst1, hst2, hst3, hst4,
    if_false, Bool.false_eq_true]
  by_cases hu : u = s.lastDeploymentUUID
  · simp only [hu, if_true, if_pos rfl]
    by_cases hlen : s.lastLogLen < b.length
    · simp [hlen, Nat.max_eq_right (Nat.le_of_lt hlen), hu]
    · simp [hlen, Nat.max_eq_left (Nat.le_of_not_lt hlen), hu]
  · have h0 : s.lastLogLen = 0 := by
      rcases h with h | h
      · exact absurd h.symm hu
      · exact h
    simp only [if_neg hu]
    by_cases hlen : 0 < b.length
    · simp [h0, hlen, Nat.max_eq_right (Nat.le_of_lt hlen)]
    · have hb : b = [] := List.length_eq_zero.mp (by omega)
      subst hb
      simp [h0]

/-- Running the loop over a stream of tracked-log cycles collects exactly
the pieces described by `printsFrom`. -/
theorem watchAux_logStream (u : String) (f : Nat → List Char) :
    ∀ (fuel : Nat) (s : WatchState) (aP : List (List Char)) (aS : List Nat) (p : Nat),
      s.lastDeploymentUUID = u ∨ s.lastLogLen = 0 →
      (watchAux (fun i => mkLogCycle u (f i)) fuel s aP aS p).prints
        = aP ++ printsFrom s.lastLogLen ((List.range fuel).map fun i => f (s.attempt + i)) := by
  intro fuel
  induction fuel with
  | zero =>
    intro s aP aS p _
    simp [watchAux, printsFrom]
  | succ n ih =>
    intro s aP aS p h
    rw [watchAux_cont (fun i => mkLogCycle u (f i)) n s
        ⟨s.attempt + 1, max s.lastLogLen (f s.attempt).length, u, true, 0⟩ aP aS p
        (if s.lastLogLen < (f s.attempt).length then [(f s.attempt).drop s.lastLogLen] else [])
        (watchStep_mkLogCycle s u (f s.attempt) h),
      ih ⟨s.attempt + 1, max s.lastLogLen (f s.attempt).length, u, true, 0⟩ _ _ _ (Or.inl rfl)]
    rw [List.range_succ_eq_map, List.map_cons, List.map_map, List.append_assoc]
    show _ = aP ++ printsFrom s.lastLogLen
      (f (s.attempt + 0) :: (List.range n).map ((fun i => f (s.attempt + i)) ∘ Nat.succ))
    rw [printsFrom]
    have hfn : ((fun i => f (s.attempt + i)) ∘ Nat.succ) = fun i => f (s.attempt + 1 + i) := by
      funext i
      show f (s.attempt + (i + 1)) = f (s.attempt + 1 + i)
      rw [show s.attempt + (i + 1) = s.attempt + 1 + i from by omega]
    rw [hfn]
    rfl

/-- Reading a list through `getD` over an index range pads it with empty
blobs at the end. -/
theorem range_map_getD (bs : List (List Char)) :
    ∀ (n : Nat), bs.length ≤ n →
      (List.range n).map (fun i => bs.getD i ([] : List Char))
        = bs ++ List.replicate (n - bs.length) [] := by
  induction bs with
  | nil =>
    intro n _
    simp only [List.getD_nil, List.nil_append, List.length_nil, Nat.sub_zero]
    rw [List.map_const', List.length_range]
  | cons b bs ih =>
    intro n hn
    cases n with
    | zero => simp at hn
    | succ m =>
      rw [List.range_succ_eq_map, List.map_cons, List.map_map]
      have hfn : ((fun i => (b :: bs).getD i ([] : List Char)) ∘ Nat.succ)
          = fun i => bs.getD i ([] : List Char) := by
        funext i
        simp [List.getD_cons_succ]
      rw [hfn, ih m (by simpa using hn)]
      simp

/-- Empty blobs never print and never move the offset. -/
theorem printsFrom_replicate_nil (k : Nat) :
    ∀ (offset : Nat), printsFrom offset (List.replicate k ([] : List Char)) = [] := by
  induction k with
  | zero => intro offset; simp [printsFrom]
  | succ n ih =>
    intro offset
    rw [List.replicate_succ, printsFrom]
    simp [ih]

/-- Padding a blob sequence with empty blobs does not change what is
printed. -/
theorem printsFrom_append_replicate (k : Nat) :
    ∀ (bs : List (List Char)) (offset : Nat),
      printsFrom offset (bs ++ List.replicate k ([] : List Char)) = printsFrom offset bs := by
  intro bs
  induction bs with
  | nil =>
    intro offset
    simp [printsFrom, printsFrom_replicate_nil]
  | cons b bs ih =>
    intro offset
    rw [List.cons_append, printsFrom, printsFrom, ih]

/-- C7: log monotonicity.  First part: for any cumulative chain of parsed
log blobs (each a prefix of the next) delivered for a single tracked
deployment, the watcher prints exactly the successive fresh suffixes: the
concatenation of everything printed equals the final blob — no range is
reprinted and none is skipped.  Second part: whenever the canonical UUID
of the latest deployment differs from the tracked one, the read offset is
reset to zero for that cycle, so the cycle prints the full blob from
position zero. -/
theorem watchDeployment_log_monotone (u : String) (blobs : List (List Char))
    (hchain : List.Chain' (· <+: ·) blobs) (hlen : blobs.length ≤ maxAttempts) :
    ((watchDeployment (fun i => mkLogCycle u (blobs.getD i []))).prints.flatten
        = blobs.getLastD [])
    ∧ (∀ (s : WatchState) (d : DeploymentItem) (rest : List DeploymentItem)
        (st : String) (b : List Char) (a : AppResp),
        canonicalUUID d ≠ s.lastDeploymentUUID →
        (watchStep s ⟨.ok (d :: rest), .ok st b, a⟩).printed
          = if 0 < b.length then [b] else []) := by
  constructor
  · rw [watchDeployment,
      watchAux_logStream u (fun i => blobs.getD i []) maxAttempts initialWatchState
        [] [] 0 (Or.inr rfl)]
    have h0 : ∀ i : Nat, (fun i => blobs.getD i ([] : List Char)) (initialWatchState.attempt + i)
        = blobs.getD i [] := by
      intro i
      show blobs.getD (0 + i) [] = blobs.getD i []
      rw [Nat.zero_add]
    simp only [List.nil_append]
    rw [show ((List.range maxAttempts).map fun i =>
          blobs.getD (initialWatchState.attempt + i) ([] : List Char))
        = (List.range maxAttempts).map fun i => blobs.getD i ([] : List Char) from
        List.map_congr_left fun i _ => h0 i]
    rw [range_map_getD blobs maxAttempts hlen, printsFrom_append_replicate]
    show (printsFrom 0 blobs).flatten = blobs.getLastD []
    rw [printsFrom_flatten blobs 0 hchain, List.drop_zero]
  · intro s d rest st b a hne
    have hne2 : (canonicalUUID d = s.lastDeploymentUUID) = False :=
      eq_false (by simpa using hne)
    simp only [watchStep, hne2, if_false, listClassify]
    split_ifs <;> simp

/-- C7, witness. -/
theorem watchDeployment_log_monotone_witness :
    (watchDeployment (fun i =>
        mkLogCycle "u1" (([['a', 'b'], ['a', 'b', 'c', 'd']] : List (List Char)).getD i []))).prints.flatten
      = ['a', 'b', 'c', 'd'] :=
  (watchDeployment_log_monotone "u1" [['a', 'b'], ['a', 'b', 'c', 'd']]
    (List.chain'_cons.mpr ⟨⟨['c', 'd'], rfl⟩, List.chain'_singleton _⟩) (by decide)).1

end Cdp
